import Mathlib

/-!
Formal model of the CHFS 2017 household-leverage feature pipeline.

Shallow embedding conventions:
* pandas/NumPy floating-point cells are modelled as exact rationals; a cell
  that is NaN (missing) is `none : Option ℚ`;
* where positive/negative infinity can flow through a column (the debt-ratio
  winsorisation stage and the validator) cells are modelled by `FVal`, which
  distinguishes finite values, the two infinities and NaN;
* variable names (Python strings) are modelled as `List Char`, written via
  `String.toList`;
* fallible operations return `Except` / `Option`.

Sources modelled: `src/data/midpoint_tables.py`, `src/data/variables.py`,
`src/data/loader.py`, `src/data/validator.py`, `src/processing/merge.py`,
`src/processing/features.py`.
-/

/-- Association-list lookup, modelling Python `dict.get` (keys are unique in
every dict we transcribe, so first-match lookup agrees with dict lookup). -/
def alookup {α β : Type} [DecidableEq α] : List (α × β) → α → Option β
  | [], _ => none
  | (k, v) :: rest, a => if a = k then some v else alookup rest a

/-! ## Midpoint tables (`src/data/midpoint_tables.py`)

Each `MAPn` transcribes `_MAP_n`: interval code → midpoint in CNY (or sqm
where noted in the source).  Each `VARSn` transcribes `_VARS_n`. -/

def MAP1 : List (ℤ × ℚ) :=
  [(1, 5000), (2, 20000), (3, 40000), (4, 60000), (5, 85000),
   (6, 200000), (7, 400000), (8, 750000), (9, 3000000),
   (10, 7500000), (11, 15000000)]

def VARS1 : List (List Char) :=
  ["b2003ait".toList, "b2050it".toList, "b2059it".toList, "b2063it".toList,
   "b2080it".toList, "d3109it".toList, "d3110it".toList, "d4103it".toList,
   "d5107it".toList, "d5108it".toList, "d6100ait".toList, "d8104it".toList,
   "d9103it".toList, "d9110ait".toList, "k2102cit".toList, "c3019ait".toList]

def MAP2 : List (ℤ × ℚ) := MAP1

def VARS2 : List (List Char) := ["b2003bit".toList, "b2052it".toList]

def MAP3 : List (ℤ × ℚ) :=
  [(1, 5000), (2, 15000), (3, 35000), (4, 75000), (5, 150000),
   (6, 250000), (7, 400000), (8, 750000), (9, 1500000),
   (10, 3500000), (11, 7500000)]

def VARS3 : List (List Char) :=
  ["b2003eit".toList, "b2055it".toList, "a3136it".toList, "d3117it".toList,
   "b2046it".toList, "b3004bit".toList, "b3005bit".toList, "b3005it".toList,
   "b3006ait".toList, "b3030dit".toList, "b3030eit".toList, "b3031ait".toList,
   "b3045cit".toList, "b3056ait".toList, "c3017cait".toList, "c3019cit".toList,
   "c3019eit".toList, "c7052bit".toList, "c7060it".toList, "c7061it".toList,
   "c7062it".toList, "c8007it".toList, "d1105it".toList, "d2104it".toList,
   "d3103it".toList, "d7106hit".toList, "d7110ait".toList, "e1006it".toList,
   "e1022it".toList, "e3003cit".toList, "e4003it".toList, "h2004it".toList,
   "c2035ait".toList]

def MAP4 : List (ℤ × ℚ) :=
  [(1, 2500), (2, 7500), (3, 15000), (4, 35000), (5, 75000),
   (6, 125000), (7, 175000), (8, 250000), (9, 400000),
   (10, 750000), (11, 1500000)]

def VARS4 : List (List Char) :=
  ["b2093it".toList, "a3136ait".toList, "a3136bit".toList, "a3137it".toList,
   "b2110it".toList, "d5109it".toList, "d7106jit".toList, "d7112it".toList,
   "d9105it".toList, "d9108it".toList, "d9110bit".toList, "k1101it".toList,
   "k2208it".toList, "f1010it".toList, "f1031it".toList]

def MAP5 : List (ℤ × ℚ) :=
  [(1, 500), (2, 1500), (3, 3500), (4, 7500), (5, 15000),
   (6, 35000), (7, 75000), (8, 150000)]

def VARS5 : List (List Char) := ["b3008fit".toList]

def MAP6 : List (ℤ × ℚ) :=
  [(1, 25), (2, ⟨121, 2, by decide, by decide⟩), (3, ⟨161, 2, by decide, by decide⟩),
   (4, ⟨191, 2, by decide, by decide⟩), (5, ⟨221, 2, by decide, by decide⟩),
   (6, 132), (7, 172), (8, 300)]

def VARS6 : List (List Char) := ["c1000bbit".toList]

def MAP7 : List (ℤ × ℚ) :=
  [(1, 50000), (2, 200000), (3, 400000), (4, 600000), (5, 850000),
   (6, 1250000), (7, 2250000), (8, 4000000), (9, 6000000),
   (10, 8500000), (11, 12500000), (12, 17500000), (13, 30000000)]

def VARS7 : List (List Char) := ["c1000bdit".toList]

def MAP8 : List (ℤ × ℚ) :=
  [(1, 5000), (2, 15000), (3, 35000), (4, 75000), (5, 150000),
   (6, 250000), (7, 400000), (8, 750000), (9, 1500000),
   (10, 3500000), (11, 6000000), (12, 8500000),
   (13, 12500000), (14, 17500000), (15, 30000000)]

def VARS8 : List (List Char) := ["c2000fit".toList]

def MAP9 : List (ℤ × ℚ) :=
  [(1, 5000), (2, 20000), (3, 40000), (4, 60000), (5, 85000),
   (6, 200000), (7, 400000), (8, 750000), (9, 3000000),
   (10, 7500000), (11, 12500000), (12, 17500000), (13, 30000000)]

def VARS9 : List (List Char) := ["c2013it".toList, "c2016it".toList]

def MAP10 : List (ℤ × ℚ) :=
  [(1, 50000), (2, 150000), (3, 350000), (4, 650000), (5, 900000),
   (6, 1250000), (7, 1750000), (8, 3500000), (9, 6500000),
   (10, 9000000), (11, 15000000)]

def VARS10 : List (List Char) :=
  ["c2027dit".toList, "c2032it".toList, "c2064it".toList]

def MAP11 : List (ℤ × ℚ) :=
  [(1, 500), (2, 2000), (3, 4000), (4, 6500), (5, 9000),
   (6, 12500), (7, 17500), (8, 25000), (9, 40000), (10, 75000)]

def VARS11 : List (List Char) := ["c2045it".toList]

def MAP12 : List (ℤ × ℚ) :=
  [(1, 25000), (2, 75000), (3, 150000), (4, 250000), (5, 400000),
   (6, 650000), (7, 900000), (8, 1250000), (9, 1750000),
   (10, 3500000), (11, 7500000)]

def VARS12 : List (List Char) := ["c3002it".toList, "c3002ait".toList]

def MAP13 : List (ℤ × ℚ) :=
  [(1, 5000), (2, 15000), (3, 35000), (4, 75000), (5, 150000),
   (6, 250000), (7, 400000), (8, 750000), (9, 1500000),
   (10, 3500000), (11, 7500000)]

def VARS13 : List (List Char) :=
  ["c3024it".toList, "c3025it".toList, "d4111it".toList, "d6116it".toList]

def MAP14 : List (ℤ × ℚ) :=
  [(1, 1000), (2, 3500), (3, 7500), (4, 15000), (5, 35000),
   (6, 75000), (7, 125000), (8, 175000), (9, 250000),
   (10, 400000), (11, 750000)]

def VARS14 : List (List Char) :=
  ["c8002ait".toList, "g1017it".toList, "g1018it".toList, "g1019it".toList,
   "g1019ait".toList, "g1020it".toList, "c8005ait".toList, "f2006it".toList,
   "f4011it".toList]

def MAP15 : List (ℤ × ℚ) :=
  [(1, 10000), (2, 35000), (3, 75000), (4, 150000), (5, 350000),
   (6, 750000), (7, 1500000), (8, 3500000), (9, 7500000),
   (10, 15000000), (11, 30000000)]

def VARS15 : List (List Char) := ["d8106it".toList]

def MAP16 : List (ℤ × ℚ) :=
  [(1, 5000), (2, 15000), (3, 35000), (4, 75000), (5, 150000),
   (6, 250000), (7, 400000), (8, 750000), (9, 1500000),
   (10, 3500000), (11, 7500000)]

def VARS16 : List (List Char) := ["e3005cit".toList]

def MAP17 : List (ℤ × ℚ) :=
  [(1, 25), (2, 75), (3, 125), (4, 225), (5, 400),
   (6, 650), (7, 1150), (8, 2250), (9, 4000),
   (10, 7500), (11, 15000), (12, 25000), (13, 40000), (14, 75000)]

def VARS17 : List (List Char) := ["f1005it".toList]

def MAP18 : List (ℤ × ℚ) :=
  [(1, 100), (2, 250), (3, 400),
   (5, 750), (6, 1500), (7, 2500), (8, 4000),
   (9, 6500), (10, 11500), (11, 17500), (12, 30000)]

def VARS18 : List (List Char) := ["f4005it".toList]

def MAP19 : List (ℤ × ℚ) :=
  [(1, 500), (2, 2000), (3, 4000),
   (5, 7500), (6, 15000), (7, 35000), (8, 75000),
   (9, 125000), (10, 175000), (11, 250000),
   (12, 400000), (13, 750000), (14, 1500000)]

def VARS19 : List (List Char) := ["f4008it".toList]

def MAP20 : List (ℤ × ℚ) :=
  [(1, 250), (2, 750), (3, 1500), (4, 3500), (5, 7500), (6, 15000),
   (7, 30000)]

def VARS20 : List (List Char) := ["h3351it".toList]

def MAP21 : List (ℤ × ℚ) :=
  [(1, 250), (2, 750), (3, 2000), (4, 4000), (5, 7500),
   (6, 15000), (7, 35000), (8, 75000)]

def VARS21 : List (List Char) := ["h3354it".toList, "h3356it".toList]

def MAP22 : List (ℤ × ℚ) :=
  [(1, 50), (2, 300), (3, 750), (4, 3000), (5, 7500), (6, 30000),
   (7, 75000)]

def VARS22 : List (List Char) :=
  ["h3367it".toList, "h3368it".toList, "h3369it".toList]

def MAP23 : List (ℤ × ℚ) :=
  [(1, 150), (2, 450), (3, 800), (4, 1250), (5, 2250),
   (6, 4500), (7, 8000), (8, 15000), (9, 35000),
   (10, 75000), (11, 150000)]

def VARS23 : List (List Char) := ["g1024it".toList]

/-- Flattened registry `_VAR_TO_MAP`: base variable name → its midpoint table.
Built exactly as the source builds it, pairing every name of `_VARS_n` with
`_MAP_n`. -/
def VAR_TO_MAP : List (List Char × List (ℤ × ℚ)) :=
  VARS1.map (fun v => (v, MAP1)) ++ VARS2.map (fun v => (v, MAP2)) ++
  VARS3.map (fun v => (v, MAP3)) ++ VARS4.map (fun v => (v, MAP4)) ++
  VARS5.map (fun v => (v, MAP5)) ++ VARS6.map (fun v => (v, MAP6)) ++
  VARS7.map (fun v => (v, MAP7)) ++ VARS8.map (fun v => (v, MAP8)) ++
  VARS9.map (fun v => (v, MAP9)) ++ VARS10.map (fun v => (v, MAP10)) ++
  VARS11.map (fun v => (v, MAP11)) ++ VARS12.map (fun v => (v, MAP12)) ++
  VARS13.map (fun v => (v, MAP13)) ++ VARS14.map (fun v => (v, MAP14)) ++
  VARS15.map (fun v => (v, MAP15)) ++ VARS16.map (fun v => (v, MAP16)) ++
  VARS17.map (fun v => (v, MAP17)) ++ VARS18.map (fun v => (v, MAP18)) ++
  VARS19.map (fun v => (v, MAP19)) ++ VARS20.map (fun v => (v, MAP20)) ++
  VARS21.map (fun v => (v, MAP21)) ++ VARS22.map (fun v => (v, MAP22)) ++
  VARS23.map (fun v => (v, MAP23))

/-- Model of `_normalise_var_name`: strip a trailing `_<digits>` suffix
(`var_name.rsplit("_", 1)`; the second part must be a nonempty digit string,
mirroring Python's `str.isdigit` on ASCII names). -/
def normalise_var_name (v : List Char) : List Char :=
  if '_' ∈ v then
    let suf := (v.reverse.takeWhile (fun ch => ch != '_')).reverse
    if suf ≠ [] ∧ suf.all Char.isDigit then
      v.take (v.length - suf.length - 1)
    else v
  else v

/-- Python `int()` truncation toward zero on a float/rational code. -/
def rat_trunc (q : ℚ) : ℤ := if 0 ≤ q then ⌊q⌋ else ⌈q⌉

/-- Model of `get_midpoint`: `none` input code (NaN) propagates; unregistered
base names and codes absent from the table resolve to `none` (NaN). -/
def get_midpoint (interval_code : Option ℚ) (var_name : List Char) : Option ℚ :=
  match interval_code with
  | none => none
  | some c =>
    match alookup VAR_TO_MAP (normalise_var_name var_name) with
    | none => none
    | some mapping => alookup mapping (rat_trunc c)

/-! ## Feature engine (`src/processing/features.py`) -/

/-- Model of `_coalesce_var` on one row: the exact value takes precedence
(`exact_series.combine_first(midpoint_series)`); when the spec has no
interval twin the exact value is returned unchanged.  `coalesce_all` first
ensures both source columns exist (missing columns are synthesised as
all-NaN), so the `spec.interval in df.columns` branch is taken exactly when
the spec has an interval name. -/
def coalesce_var (exact : Option ℚ) (interval_name : Option (List Char))
    (interval_code : Option ℚ) : Option ℚ :=
  match interval_name with
  | some nm => exact.orElse (fun _ => get_midpoint interval_code nm)
  | none => exact

/-- Row-wise model of `df[cols].fillna(0).sum(axis=1)`. -/
def fillna_sum (cells : List (Option ℚ)) : ℚ :=
  (cells.map (fun v => v.getD 0)).sum

/-- Model of `compute_totals` on one row: returns
`(total_debt, total_assets_raw, total_assets)`.  `vib` is the coalesced
vehicle-in-business value; `clip(lower=0)` is `max · 0`. -/
def compute_totals_row (debt_cells asset_cells : List (Option ℚ))
    (vib : Option ℚ) : ℚ × ℚ × ℚ :=
  let total_debt := fillna_sum debt_cells
  let total_assets_raw := fillna_sum asset_cells
  let total_assets := max (total_assets_raw - vib.getD 0) 0
  (total_debt, total_assets_raw, total_assets)

/-- Row-wise model of `compute_debt_ratio` lines 120-122: the raw ratio
`total_debt / (total_assets + eps)` followed by the two `.loc` overrides
(both totals zero → exactly 0; positive debt on zero assets → NaN). -/
def debt_ratio_row (eps d a : ℚ) : Option ℚ :=
  let raw : Option ℚ := some (d / (a + eps))
  let step1 : Option ℚ := if d = 0 ∧ a = 0 then some 0 else raw
  if 0 < d ∧ a = 0 then none else step1

/-- A pandas float cell as seen by the winsorisation stage and the
validator: finite value, positive/negative infinity, or NaN. -/
inductive FVal where
  | fin : ℚ → FVal
  | pinf : FVal
  | ninf : FVal
  | nan : FVal
deriving DecidableEq

/-- Model of `series.replace([np.inf, -np.inf], np.nan)` composed with
definedness: infinities and NaN become `none`, finite values survive. -/
def replace_inf_nan : FVal → Option ℚ
  | FVal.fin q => some q
  | _ => none

/-- Insertion of one element into a sorted list (ascending). -/
def insert_sorted (x : ℚ) : List ℚ → List ℚ
  | [] => [x]
  | y :: ys => if x ≤ y then x :: y :: ys else y :: insert_sorted x ys

/-- Ascending sort by insertion; models the ordering NumPy's `argsort` uses
inside `scipy.stats.mstats.winsorize` (on a list of rationals the sorted
value sequence is unique, so the choice of algorithm is immaterial). -/
def sort_rat (xs : List ℚ) : List ℚ := xs.foldr insert_sorted []

/-- Number of observations set at the lower tail by
`scipy.stats.mstats.winsorize` with lower limit `l` on `n` defined
observations: the positions `idx[:int(l*n)]`, i.e. `⌊l·n⌋` of them
(for `0 ≤ l ≤ 1`). -/
def low_clamp_count (l : ℚ) (n : ℕ) : ℕ := min (⌊l * (n : ℚ)⌋.toNat) n

/-- Number of observations set at the upper tail, `idx[n - int(u*n):]`. -/
def high_clamp_count (u : ℚ) (n : ℕ) : ℕ := min (⌊u * (n : ℚ)⌋.toNat) n

/-- Lower winsorisation bound: the `⌊l·n⌋`-th order statistic of the defined
observations (`a[idx[lowidx]]` in scipy's `_winsorize1D`). -/
def winsor_low_cut (l : ℚ) (xs : List ℚ) : ℚ :=
  (sort_rat xs).getD (⌊l * (xs.length : ℚ)⌋.toNat) 0

/-- Upper winsorisation bound: `a[idx[upidx - 1]]` where
`upidx = n - int(u*n)`. -/
def winsor_high_cut (u : ℚ) (xs : List ℚ) : ℚ :=
  (sort_rat xs).getD (xs.length - ⌊u * (xs.length : ℚ)⌋.toNat - 1) 0

/-- Model of `winsorize(clean, limits=[l, u])` in original row order.
scipy assigns the `⌊l·n⌋` lowest positions the value of the `⌊l·n⌋`-th order
statistic and the `⌊u·n⌋` highest positions the value of the
`(n−⌊u·n⌋−1)`-th order statistic; on the value level (for `l + u < 1`) this
is clamping every observation into the closed interval between the two
cuts. -/
def winsorize_list (l u : ℚ) (xs : List ℚ) : List ℚ :=
  let lo := winsor_low_cut l xs
  let hi := winsor_high_cut u xs
  xs.map (fun x => min hi (max lo x))

/-- Model of `pd.Series(win_vals, index=clean.index)` assigned back into the
full column: positions that were NaN in `cleaned` stay NaN, the others
receive the winsorised values in order. -/
def align_back : List (Option ℚ) → List ℚ → List (Option ℚ)
  | [], _ => []
  | none :: rest, ws => none :: align_back rest ws
  | some _ :: rest, [] => none :: align_back rest []
  | some _ :: rest, w :: ws => some w :: align_back rest ws

/-- The ratio column after `replace([np.inf, -np.inf], np.nan)`, one
`Option` cell per original row. -/
def cleaned_ratios (col : List FVal) : List (Option ℚ) :=
  col.map replace_inf_nan

/-- Model of `clean = df["debt_ratio"].replace([np.inf, -np.inf],
np.nan).dropna()`: the defined observations, in row order. -/
def defined_ratios (col : List FVal) : List ℚ :=
  (cleaned_ratios col).filterMap id

/-- Model of `compute_debt_ratio` lines 124-135: replace infinities by NaN,
drop NaN to obtain the defined subset, winsorise it, and write the result
back aligned to the original row positions (the all-NaN column case mirrors
the `clean.empty` branch). -/
def winsorize_stage (l u : ℚ) (col : List FVal) : List (Option ℚ) :=
  if (defined_ratios col).isEmpty then col.map (fun _ => none)
  else align_back (cleaned_ratios col) (winsorize_list l u (defined_ratios col))

/-! ## Configuration (`src/config.py`) -/

/-- The analysis parameters of `Settings` consumed by the modelled stages
(paths, model and export settings are out of scope). -/
structure Settings where
  survey_year : ℤ
  head_min_age : ℚ
  sibling_max_age : ℚ
  winsorize_limits : ℚ × ℚ
  epsilon : ℚ
  log_dv_constant : ℚ

/-- The source defaults: survey year 2017, minimum head age 16, sibling-age
ceiling 40, 1% winsorisation per tail, eps 1e-9, log offset 0.001. -/
def default_settings : Settings :=
  { survey_year := 2017
  , head_min_age := 16
  , sibling_max_age := 40
  , winsorize_limits := (⟨1, 100, by decide, by decide⟩, ⟨1, 100, by decide, by decide⟩)
  , epsilon := ⟨1, 1000000000, by decide, by decide⟩
  , log_dv_constant := ⟨1, 1000, by decide, by decide⟩ }

/-! ## Head extraction (`src/data/loader.py`) -/

/-- One row of the individual-level table, restricted to the columns
`extract_heads` reads (`hhid` plus the fields of `HEAD_COLS_MAP` and the
sibling-count inputs).  A column missing from a given data extract is
modelled as all-`none`, except `a2028`/`a2029` which the code synthesises as
the constant 0 — value-level `none` and a synthesised 0 contribute the same
0 to the sibling sum, see `head_stage`. -/
structure IndRow where
  hhid : ℤ
  a2001 : Option ℚ
  a2005 : Option ℚ
  a2028 : Option ℚ
  a2029 : Option ℚ
  a2003 : Option ℚ
  a2012 : Option ℚ
  a2024 : Option ℚ
  a2025b : Option ℚ
deriving DecidableEq

/-- One extracted head record after the select/rename through
`HEAD_COLS_MAP`. -/
structure HeadRow where
  hhid : ℤ
  head_age : Option ℚ
  head_sex : Option ℚ
  head_educ : Option ℚ
  head_marital : Option ℚ
  head_health : Option ℚ
  head_siblings : Option ℚ
deriving DecidableEq

/-- Per-row model of `extract_heads` before de-duplication: keep rows whose
respondent-role `a2001` equals 1 (a NaN role is not a head), derive
`head_age = survey_year - a2005` (NaN birth year gives NaN age), drop heads
whose age fails `head_age >= head_min_age` (a NaN age fails the comparison),
compute the raw sibling count `a2028.fillna(0) + a2029.fillna(0)`, and
override the sibling count to NaN unless `head_age <= sibling_max_age`. -/
def head_stage (cfg : Settings) (r : IndRow) : Option HeadRow :=
  if r.a2001 = some 1 then
    let age : Option ℚ := r.a2005.map (fun b => (cfg.survey_year : ℚ) - b)
    let age_ok : Bool := match age with
      | some a => decide (a ≥ cfg.head_min_age)
      | none => false
    if age_ok then
      let raw : ℚ := r.a2028.getD 0 + r.a2029.getD 0
      let sib : Option ℚ := match age with
        | some a => if a ≤ cfg.sibling_max_age then some raw else none
        | none => none
      some { hhid := r.hhid, head_age := age, head_sex := r.a2003
           , head_educ := r.a2012, head_marital := r.a2024
           , head_health := r.a2025b, head_siblings := sib }
    else none
  else none

/-- Model of `drop_duplicates(subset=["hhid"], keep="first")`. -/
def dedup_by_hhid (seen : List ℤ) : List HeadRow → List HeadRow
  | [] => []
  | r :: rest =>
    if r.hhid ∈ seen then dedup_by_hhid seen rest
    else r :: dedup_by_hhid (r.hhid :: seen) rest

/-- Model of `extract_heads`: role filter, age derivation and filter,
sibling computation, select/rename, then first-occurrence de-duplication on
`hhid`. -/
def extract_heads (cfg : Settings) (rows : List IndRow) : List HeadRow :=
  dedup_by_hhid [] (rows.filterMap (head_stage cfg))

/-! ## Merge (`src/processing/merge.py`) -/

/-- Model of `pd.merge(hh_df, head_df, on="hhid", how="left")` at the level
needed for row accounting: every household row produces one output row per
matching head row (in head-table order), or a single row with NaN head
payload when no head matches.  The head payload is abstracted to the head
row itself. -/
def left_join (hh : List ℤ) (head : List HeadRow) : List (ℤ × Option HeadRow) :=
  hh.flatMap (fun k =>
    match head.filter (fun hr => hr.hhid = k) with
    | [] => [(k, none)]
    | ms => ms.map (fun hr => (k, some hr)))

/-- Model of `merge_head_into_household`: perform the left join and raise
`ValueError` when the row count changed. -/
def merge_head_into_household (hh : List ℤ) (head : List HeadRow) :
    Except String (List (ℤ × Option HeadRow)) :=
  let merged := left_join hh head
  if merged.length ≠ hh.length then
    Except.error "Merge changed row count. Check hhid uniqueness in the head DataFrame."
  else Except.ok merged

/-! ## Validator (`src/data/validator.py`) -/

/-- A single schema violation.  The free-text `detail` of the source is
presentation-only and is omitted from the model. -/
structure Violation where
  column : String
  rule : String
  severity : String
deriving DecidableEq

/-- Aggregated validation results. -/
structure ValidationReport where
  violations : List Violation
  rows_checked : ℕ
  columns_checked : ℕ

/-- Property `ValidationReport.is_valid`: no ERROR-severity violation. -/
def ValidationReport.is_valid (r : ValidationReport) : Bool :=
  ! r.violations.any (fun v => v.severity == "ERROR")

/-- Property `ValidationReport.error_count`. -/
def ValidationReport.error_count (r : ValidationReport) : ℕ :=
  r.violations.countP (fun v => v.severity == "ERROR")

/-- Property `ValidationReport.warning_count`. -/
def ValidationReport.warning_count (r : ValidationReport) : ℕ :=
  r.violations.countP (fun v => v.severity == "WARNING")

/-- Validation rules of one column (`ColumnSchema`).  `dtype` and `label`
are not modelled: the label is presentational, and every column the
validator sees holds float cells (`FVal`), so the
`np.issubdtype(..., np.floating)` guard before the infinity check is
always taken. -/
structure ColumnSchema where
  name : String
  nullable : Bool := true
  min_value : Option ℚ := none
  max_value : Option ℚ := none
  allowed_values : Option (List ℚ) := none

/-- A tabular dataset as the validator sees it: named columns of float
cells. -/
def lookup_column (df : List (String × List FVal)) (name : String) :
    Option (List FVal) :=
  alookup df name

/-- Model of `pd.isna` on a float cell: true exactly for NaN. -/
def fval_isna : FVal → Bool
  | FVal.nan => true
  | _ => false

/-- Comparison `v < bound` on a non-NaN float cell. -/
def fval_lt (v : FVal) (bound : ℚ) : Bool :=
  match v with
  | FVal.fin q => decide (q < bound)
  | FVal.pinf => false
  | FVal.ninf => true
  | FVal.nan => false

/-- Comparison `v > bound` on a non-NaN float cell. -/
def fval_gt (v : FVal) (bound : ℚ) : Bool :=
  match v with
  | FVal.fin q => decide (bound < q)
  | FVal.pinf => true
  | FVal.ninf => false
  | FVal.nan => false

/-- Membership `v ∈ allowed` on a non-NaN float cell (an infinity is never
in a finite allowed set). -/
def fval_isin (v : FVal) (allowed : List ℚ) : Bool :=
  match v with
  | FVal.fin q => allowed.contains q
  | _ => false

/-- Model of `np.isinf` on a float cell. -/
def fval_isinf : FVal → Bool
  | FVal.pinf => true
  | FVal.ninf => true
  | _ => false

/-- Model of `_check_column`: existence, nullability (with the 80%
high-missing warning), then — on the non-null subset, and only when it is
nonempty — range checks, allowed-set check, and the infinity check.
`pct > 80` with `pct = null_count / len * 100` is the exact rational
comparison `100 * null_count > 80 * len`. -/
def check_column (df : List (String × List FVal)) (schema : ColumnSchema) :
    List Violation :=
  match lookup_column df schema.name with
  | none => [⟨schema.name, "MISSING_COLUMN", "ERROR"⟩]
  | some series =>
    let null_count := series.countP fval_isna
    let null_viol : List Violation :=
      if 0 < null_count then
        if !schema.nullable then [⟨schema.name, "NOT_NULLABLE", "ERROR"⟩]
        else if 80 * series.length < 100 * null_count then
          [⟨schema.name, "HIGH_MISSING", "WARNING"⟩]
        else []
      else []
    let non_null := series.filter (fun v => !fval_isna v)
    if non_null.isEmpty then null_viol
    else
      let min_viol : List Violation :=
        match schema.min_value with
        | some m => if 0 < non_null.countP (fun v => fval_lt v m) then
            [⟨schema.name, "BELOW_MIN", "ERROR"⟩] else []
        | none => []
      let max_viol : List Violation :=
        match schema.max_value with
        | some m => if 0 < non_null.countP (fun v => fval_gt v m) then
            [⟨schema.name, "ABOVE_MAX", "ERROR"⟩] else []
        | none => []
      let allowed_viol : List Violation :=
        match schema.allowed_values with
        | some vs => if 0 < non_null.countP (fun v => !fval_isin v vs) then
            [⟨schema.name, "INVALID_VALUES", "ERROR"⟩] else []
        | none => []
      let inf_viol : List Violation :=
        if 0 < non_null.countP fval_isinf then
          [⟨schema.name, "INFINITE_VALUES", "ERROR"⟩] else []
      null_viol ++ min_viol ++ max_viol ++ allowed_viol ++ inf_viol

/-- Model of `validate`: check every schema column and aggregate. -/
def validate (df : List (String × List FVal)) (schema : List ColumnSchema) :
    ValidationReport :=
  { violations := schema.flatMap (check_column df)
  , rows_checked := (df.map (fun c => c.2.length)).foldr max 0
  , columns_checked := schema.length }

/-! ## Helper lemmas -/

theorem alookup_eq_some_of_mem {α β : Type} [DecidableEq α]
    {l : List (α × β)} (hnd : (l.map Prod.fst).Nodup) {k : α} {v : β}
    (hm : (k, v) ∈ l) : alookup l k = some v := by
  induction l with
  | nil => cases hm
  | cons p rest ih =>
    obtain ⟨a, b⟩ := p
    simp only [List.map_cons, List.nodup_cons] at hnd
    rcases List.mem_cons.mp hm with heq | htail
    · cases heq
      simp [alookup]
    · have hka : k ≠ a := by
        intro hka
        subst hka
        exact hnd.1 (List.mem_map_of_mem Prod.fst htail)
      simp only [alookup, if_neg hka]
      exact ih hnd.2 htail

theorem rat_trunc_intCast (z : ℤ) : rat_trunc (z : ℚ) = z := by
  unfold rat_trunc
  split <;> simp

theorem fillna_sum_of_all_none {cells : List (Option ℚ)}
    (h : ∀ x ∈ cells, x = none) : fillna_sum cells = 0 := by
  induction cells with
  | nil => rfl
  | cons c rest ih =>
    have hc : c = none := h c (List.mem_cons_self c rest)
    have hrest : ∀ x ∈ rest, x = none := fun x hx => h x (List.mem_cons_of_mem c hx)
    simp [fillna_sum, hc] at ih ⊢
    simpa [fillna_sum] using ih hrest

/-! ## Claim theorems -/

/-- C1: in `compute_debt_ratio`, a row with `total_debt == 0` and
`total_assets == 0` gets `debt_ratio` exactly 0; a row with
`total_debt > 0` and `total_assets == 0` gets an undefined (NaN) ratio,
never positive infinity (the model has no infinity to produce: the override
yields `none`); every other row gets `total_debt / (total_assets + ε)`. -/
theorem spec_C1 (eps d a : ℚ) :
    (d = 0 ∧ a = 0 → debt_ratio_row eps d a = some 0)
    ∧ (0 < d ∧ a = 0 → debt_ratio_row eps d a = none)
    ∧ (¬(d = 0 ∧ a = 0) → ¬(0 < d ∧ a = 0) →
        debt_ratio_row eps d a = some (d / (a + eps))) := by
  refine ⟨?_, ?_, ?_⟩
  · rintro ⟨hd, ha⟩
    simp [debt_ratio_row, hd, ha]
  · rintro ⟨hd, ha⟩
    have hne : ¬ (d = 0 ∧ a = 0) := by
      rintro ⟨hd0, -⟩
      exact absurd (hd0 ▸ hd) (lt_irrefl 0)
    simp [debt_ratio_row, hne, hd, ha]
  · intro h1 h2
    simp [debt_ratio_row, h1, h2]

theorem spec_C1_witness :
    ((5 : ℚ) = 0 ∧ (0 : ℚ) = 0 → debt_ratio_row default_settings.epsilon 5 0 = some 0)
    ∧ ((0 : ℚ) < 5 ∧ (0 : ℚ) = 0 → debt_ratio_row default_settings.epsilon 5 0 = none)
    ∧ (¬((5 : ℚ) = 0 ∧ (0 : ℚ) = 0) → ¬((0 : ℚ) < 5 ∧ (0 : ℚ) = 0) →
        debt_ratio_row default_settings.epsilon 5 0 =
          some (5 / (0 + default_settings.epsilon))) :=
  spec_C1 default_settings.epsilon 5 0

/-- C3: coalescing is precedence-correct: a defined exact value is returned
regardless of the interval column; an undefined exact value falls back to
the midpoint resolved from the interval code (which is itself `none` when
the resolution fails), and to `none` when the spec has no interval twin. -/
theorem spec_C3 (e : Option ℚ) (nm : List Char) (code : Option ℚ) :
    (∀ v : ℚ, e = some v →
      ∀ inm : Option (List Char), coalesce_var e inm code = some v)
    ∧ (e = none → coalesce_var e (some nm) code = get_midpoint code nm)
    ∧ (e = none → coalesce_var e none code = none) := by
  refine ⟨?_, ?_, ?_⟩
  · intro v hv inm
    cases inm <;> simp [coalesce_var, hv, Option.orElse]
  · intro he
    simp [coalesce_var, he, Option.orElse]
  · intro he
    simp [coalesce_var, he]

theorem spec_C3_witness :
    coalesce_var (some 1000) (some "c2064it".toList) (some 3) = some 1000
    ∧ coalesce_var none (some "c2064it".toList) (some 3) =
        get_midpoint (some 3) "c2064it".toList :=
  ⟨(spec_C3 (some 1000) "c2064it".toList (some 3)).1 1000 rfl (some "c2064it".toList),
   (spec_C3 none "c2064it".toList (some 3)).2.1 rfl⟩

/-- C4: `compute_totals` sums the coalesced debt columns treating undefined
as 0 (an all-undefined debt row totals exactly 0), likewise for
`total_assets_raw`, and sets
`total_assets = max 0 (total_assets_raw - vib)` with an undefined
vehicle-in-business value treated as 0. -/
theorem spec_C4 (debts assets : List (Option ℚ)) (vib : Option ℚ) :
    ((compute_totals_row debts assets vib).1 = fillna_sum debts)
    ∧ ((∀ x ∈ debts, x = none) → (compute_totals_row debts assets vib).1 = 0)
    ∧ ((compute_totals_row debts assets vib).2.1 = fillna_sum assets)
    ∧ ((∀ x ∈ assets, x = none) → (compute_totals_row debts assets vib).2.1 = 0)
    ∧ ((compute_totals_row debts assets vib).2.2 =
        max 0 ((compute_totals_row debts assets vib).2.1 - vib.getD 0))
    ∧ (vib = none → (compute_totals_row debts assets vib).2.2 =
        max 0 ((compute_totals_row debts assets vib).2.1 - 0)) := by
  refine ⟨rfl, ?_, rfl, ?_, ?_, ?_⟩
  · intro h
    exact fillna_sum_of_all_none h
  · intro h
    exact fillna_sum_of_all_none h
  · simp [compute_totals_row, max_comm]
  · intro h
    simp [compute_totals_row, h, max_comm]

theorem spec_C4_witness :
    (compute_totals_row [none, none] [some 7, none] none).1 = 0
    ∧ (compute_totals_row [none, none] [some 7, none] none).2.2 =
        max 0 ((compute_totals_row [none, none] [some 7, none] none).2.1 - 0) :=
  ⟨(spec_C4 [none, none] [some 7, none] none).2.1 (by decide),
   (spec_C4 [none, none] [some 7, none] none).2.2.2.2.2 rfl⟩

set_option maxRecDepth 8000

theorem var_keys_nodup : (VAR_TO_MAP.map Prod.fst).Nodup := by decide

theorem var_tables_nodup : ∀ p ∈ VAR_TO_MAP, ((p.2.map Prod.fst).Nodup) := by
  decide

theorem registered_names_normalise_fixed :
    ∀ nm ∈ VAR_TO_MAP.map Prod.fst, normalise_var_name nm = nm := by decide

/-- C8: `get_midpoint` returns the literal table entry for every registered
variable name and every code in its table, and returns `none` (NaN, never
zero) for an undefined input code, an unregistered base name, or a code
absent from the registered table. -/
theorem spec_C8 :
    (∀ nm tbl, (nm, tbl) ∈ VAR_TO_MAP → ∀ k : ℤ, ∀ v : ℚ, (k, v) ∈ tbl →
      get_midpoint (some (k : ℚ)) nm = some v)
    ∧ (∀ nm, get_midpoint none nm = none)
    ∧ (∀ c nm, alookup VAR_TO_MAP (normalise_var_name nm) = none →
        get_midpoint (some c) nm = none)
    ∧ (∀ c nm tbl, alookup VAR_TO_MAP (normalise_var_name nm) = some tbl →
        alookup tbl (rat_trunc c) = none →
        get_midpoint (some c) nm = none) := by
  refine ⟨?_, ?_, ?_, ?_⟩
  · intro nm tbl hmem k v hkv
    have h0 : nm ∈ VAR_TO_MAP.map Prod.fst := List.mem_map_of_mem Prod.fst hmem
    have h1 := registered_names_normalise_fixed nm h0
    have h2 : alookup VAR_TO_MAP nm = some tbl :=
      alookup_eq_some_of_mem var_keys_nodup hmem
    have h3 : alookup tbl k = some v :=
      alookup_eq_some_of_mem (var_tables_nodup (nm, tbl) hmem) hkv
    simp [get_midpoint, h1, h2, rat_trunc_intCast, h3]
  · intro nm
    rfl
  · intro c nm h
    simp [get_midpoint, h]
  · intro c nm tbl h1 h2
    simp [get_midpoint, h1, h2]

theorem spec_C8_witness :
    get_midpoint (some ((3 : ℤ) : ℚ)) "c2064it".toList = some 350000 :=
  spec_C8.1 "c2064it".toList MAP10 (by decide) 3 350000 (by decide)

theorem takeWhile_append_of_all {α : Type} (p : α → Bool) :
    ∀ (a : List α) (b : α) (t : List α), (∀ c ∈ a, p c = true) → p b = false →
    (a ++ b :: t).takeWhile p = a := by
  intro a
  induction a with
  | nil =>
    intro b t _ hb
    simp [List.takeWhile, hb]
  | cons x rest ih =>
    intro b t ha hb
    have hx : p x = true := ha x (List.mem_cons_self x rest)
    have hrest : ∀ c ∈ rest, p c = true :=
      fun c hc => ha c (List.mem_cons_of_mem x hc)
    simp [List.takeWhile, hx, ih b t hrest hb]

theorem normalise_append_digit_suffix (x d : List Char) (hne : d ≠ [])
    (hdig : ∀ c ∈ d, c.isDigit = true) :
    normalise_var_name (x ++ '_' :: d) = x := by
  have hmem : '_' ∈ x ++ '_' :: d := by simp
  have hrev : (x ++ '_' :: d).reverse = d.reverse ++ '_' :: x.reverse := by
    simp
  have hall : ∀ c ∈ d.reverse, (c != '_') = true := by
    intro c hc
    have hcd : c ∈ d := List.mem_reverse.mp hc
    have : c ≠ '_' := by
      intro he
      have := hdig c hcd
      rw [he] at this
      exact absurd this (by decide)
    simpa using this
  have hsuf : ((x ++ '_' :: d).reverse.takeWhile (fun ch => ch != '_')).reverse = d := by
    rw [hrev, takeWhile_append_of_all (fun ch => ch != '_') d.reverse '_' x.reverse hall (by decide)]
    exact List.reverse_reverse d
  unfold normalise_var_name
  rw [if_pos hmem]
  simp only [hsuf]
  have hcond : d ≠ [] ∧ d.all Char.isDigit := by
    refine ⟨hne, ?_⟩
    exact List.all_eq_true.mpr hdig
  rw [if_pos hcond]
  have hlen : (x ++ '_' :: d).length - d.length - 1 = x.length := by
    simp only [List.length_append, List.length_cons]
    omega
  rw [hlen]
  exact List.take_left x ('_' :: d)

/-- C9: midpoint resolution is insensitive to a trailing `_<digits>` suffix:
for every registered base name, appending an underscore and a nonempty digit
string leaves the result of `get_midpoint` unchanged for every code. -/
theorem spec_C9 (nm : List Char) (hreg : nm ∈ VAR_TO_MAP.map Prod.fst)
    (d : List Char) (hne : d ≠ []) (hdig : ∀ c ∈ d, c.isDigit = true)
    (code : Option ℚ) :
    get_midpoint code (nm ++ '_' :: d) = get_midpoint code nm := by
  cases code with
  | none => rfl
  | some c =>
    have h1 : normalise_var_name (nm ++ '_' :: d) = nm :=
      normalise_append_digit_suffix nm d hne hdig
    have h2 := registered_names_normalise_fixed nm hreg
    simp [get_midpoint, h1, h2]

theorem spec_C9_witness :
    get_midpoint (some 1) ("c2064it".toList ++ '_' :: ['3']) =
      get_midpoint (some 1) "c2064it".toList :=
  spec_C9 "c2064it".toList (by decide) ['3'] (by decide) (by decide) (some 1)

theorem left_join_cons (k : ℤ) (rest : List ℤ) (head : List HeadRow) :
    left_join (k :: rest) head =
      (match head.filter (fun hr => hr.hhid = k) with
        | [] => [(k, none)]
        | ms => ms.map (fun hr => (k, some hr))) ++ left_join rest head := by
  simp [left_join]

theorem left_join_length_cons (k : ℤ) (rest : List ℤ) (head : List HeadRow) :
    (left_join (k :: rest) head).length =
      max (head.filter (fun hr => hr.hhid = k)).length 1 +
        (left_join rest head).length := by
  rw [left_join_cons, List.length_append]
  cases hm : head.filter (fun hr => hr.hhid = k) with
  | nil => simp
  | cons a t =>
    simp only [List.length_map, List.length_cons]
    have h1 : max (t.length + 1) 1 = t.length + 1 :=
      Nat.max_eq_left (Nat.succ_le_succ (Nat.zero_le _))
    rw [h1]

theorem left_join_length_ge (hh : List ℤ) (head : List HeadRow) :
    hh.length ≤ (left_join hh head).length := by
  induction hh with
  | nil => simp [left_join]
  | cons k rest ih =>
    rw [left_join_length_cons]
    have h1 : 1 ≤ max (head.filter (fun hr => hr.hhid = k)).length 1 :=
      Nat.le_max_right _ 1
    simp only [List.length_cons]
    omega

theorem filter_key_length_le_one {head : List HeadRow}
    (hnd : (head.map HeadRow.hhid).Nodup) (k : ℤ) :
    (head.filter (fun hr => hr.hhid = k)).length ≤ 1 := by
  induction head with
  | nil => simp
  | cons a t ih =>
    simp only [List.map_cons, List.nodup_cons] at hnd
    by_cases hak : a.hhid = k
    · have hnil : t.filter (fun hr => hr.hhid = k) = [] := by
        rw [List.filter_eq_nil_iff]
        intro hr hmem
        simp only [decide_eq_true_eq]
        intro heq
        have h1 : hr.hhid ∈ t.map HeadRow.hhid :=
          List.mem_map_of_mem HeadRow.hhid hmem
        rw [heq, ← hak] at h1
        exact hnd.1 h1
      simp [List.filter_cons, hak, hnil]
    · simp only [List.filter_cons, decide_eq_true_eq, if_neg hak]
      exact ih hnd.2

theorem left_join_length_eq_iff (hh : List ℤ) (head : List HeadRow) :
    (left_join hh head).length = hh.length ↔
      ∀ k ∈ hh, (head.filter (fun hr => hr.hhid = k)).length ≤ 1 := by
  induction hh with
  | nil => simp [left_join]
  | cons k rest ih =>
    have hge : rest.length ≤ (left_join rest head).length :=
      left_join_length_ge rest head
    rw [left_join_length_cons]
    simp only [List.length_cons]
    by_cases hf : (head.filter (fun hr => hr.hhid = k)).length ≤ 1
    · have hmax : max (head.filter (fun hr => hr.hhid = k)).length 1 = 1 :=
        Nat.max_eq_right hf
      rw [hmax]
      constructor
      · intro h
        intro k2 hk2
        rcases List.mem_cons.mp hk2 with he | ht
        · exact he ▸ hf
        · exact (ih.mp (by omega)) k2 ht
      · intro h
        have hrest : (left_join rest head).length = rest.length :=
          ih.mpr (fun k2 hk2 => h k2 (List.mem_cons_of_mem k hk2))
        omega
    · have hmax : max (head.filter (fun hr => hr.hhid = k)).length 1 =
          (head.filter (fun hr => hr.hhid = k)).length :=
        Nat.max_eq_left (by omega)
      rw [hmax]
      constructor
      · intro h
        exact absurd rfl (by omega : ¬ (1 : ℕ) = 1)
      · intro h
        exact absurd (h k (List.mem_cons_self k rest)) hf

/-- C2 (amended): with a uniquely keyed head table the merge returns exactly
`len(A)` rows; the merge raises `ValueError` if and only if some household
key occurs at least twice in the head table.  (Duplicate head keys matched
by no household row do not change the row count, so they do not raise — see
`spec_C2_counterexample`.) -/
theorem spec_C2 (hh : List ℤ) (head : List HeadRow) :
    ((head.map HeadRow.hhid).Nodup →
      merge_head_into_household hh head = Except.ok (left_join hh head)
      ∧ (left_join hh head).length = hh.length)
    ∧ ((∃ e, merge_head_into_household hh head = Except.error e) ↔
        ∃ k ∈ hh, 2 ≤ (head.filter (fun hr => hr.hhid = k)).length) := by
  constructor
  · intro hnd
    have hlen : (left_join hh head).length = hh.length :=
      (left_join_length_eq_iff hh head).mpr
        (fun k _ => filter_key_length_le_one hnd k)
    refine ⟨?_, hlen⟩
    simp [merge_head_into_household, hlen]
  · constructor
    · rintro ⟨e, he⟩
      by_cases hlen : (left_join hh head).length = hh.length
      · simp [merge_head_into_household, hlen] at he
      · have h1 := (left_join_length_eq_iff hh head).not.mp hlen
        push_neg at h1
        obtain ⟨k, hk, hgt⟩ := h1
        exact ⟨k, hk, by omega⟩
    · rintro ⟨k, hk, h2⟩
      have hlen : (left_join hh head).length ≠ hh.length := by
        rw [Ne, left_join_length_eq_iff]
        push_neg
        exact ⟨k, hk, by omega⟩
      refine ⟨"Merge changed row count. Check hhid uniqueness in the head DataFrame.", ?_⟩
      simp [merge_head_into_household, hlen]

/-- C2 counterexample to the claim as stated: the head table
`[{hhid: 2}, {hhid: 2}]` has duplicate `hhid` values, yet merging it into
the household table `[1]` returns a result (no `ValueError`), because the
duplicated key matches no household row and the row count is unchanged. -/
theorem spec_C2_counterexample :
    ¬ (([⟨2, none, none, none, none, none, none⟩,
         ⟨2, none, none, none, none, none, none⟩] :
          List HeadRow).map HeadRow.hhid).Nodup
    ∧ merge_head_into_household [1]
        [⟨2, none, none, none, none, none, none⟩,
         ⟨2, none, none, none, none, none, none⟩] =
        Except.ok [(1, none)] := by
  constructor
  · decide
  · rfl

theorem spec_C2_witness :
    merge_head_into_household [10, 11]
        [⟨10, some 42, none, none, none, none, some 3⟩] =
      Except.ok (left_join [10, 11]
        [⟨10, some 42, none, none, none, none, some 3⟩])
    ∧ (left_join [10, 11]
        [⟨10, some 42, none, none, none, none, some 3⟩]).length =
      ([10, 11] : List ℤ).length :=
  (spec_C2 [10, 11] [⟨10, some 42, none, none, none, none, some 3⟩]).1
    (by decide)

theorem dedup_by_hhid_subset (seen : List ℤ) (l : List HeadRow) :
    ∀ h ∈ dedup_by_hhid seen l, h ∈ l := by
  induction l generalizing seen with
  | nil => intro h hm; cases hm
  | cons r rest ih =>
    intro h hm
    simp only [dedup_by_hhid] at hm
    by_cases hs : r.hhid ∈ seen
    · rw [if_pos hs] at hm
      exact List.mem_cons_of_mem r (ih seen h hm)
    · rw [if_neg hs] at hm
      rcases List.mem_cons.mp hm with he | ht
      · exact he ▸ List.mem_cons_self r rest
      · exact List.mem_cons_of_mem r (ih (r.hhid :: seen) h ht)

theorem head_stage_eq_some (cfg : Settings) (r : IndRow) (h : HeadRow)
    (hs : head_stage cfg r = some h) :
    r.a2001 = some 1 ∧
    ∃ b : ℚ, r.a2005 = some b ∧
      h.head_age = some ((cfg.survey_year : ℚ) - b) ∧
      cfg.head_min_age ≤ (cfg.survey_year : ℚ) - b ∧
      ((cfg.survey_year : ℚ) - b ≤ cfg.sibling_max_age →
        h.head_siblings = some (r.a2028.getD 0 + r.a2029.getD 0)) ∧
      (cfg.sibling_max_age < (cfg.survey_year : ℚ) - b →
        h.head_siblings = none) := by
  unfold head_stage at hs
  by_cases hrole : r.a2001 = some 1
  · rw [if_pos hrole] at hs
    refine ⟨hrole, ?_⟩
    cases hb : r.a2005 with
    | none =>
      rw [hb] at hs
      simp at hs
    | some b =>
      rw [hb] at hs
      simp only [Option.map_some'] at hs
      by_cases hok : (cfg.survey_year : ℚ) - b ≥ cfg.head_min_age
      · rw [if_pos (by simpa using hok)] at hs
        refine ⟨b, rfl, ?_, hok, ?_, ?_⟩
        · rw [← Option.some_inj.mp hs]
        · intro hle
          rw [← Option.some_inj.mp hs]
          simp [hle]
        · intro hgt
          rw [← Option.some_inj.mp hs]
          simp [not_le.mpr hgt]
      · rw [if_neg (by simpa using hok)] at hs
        cases hs
  · rw [if_neg hrole] at hs
    cases hs

/-- C5: for every retained head row, the raw sibling count is
`a2028.fillna(0) + a2029.fillna(0)` (undefined sub-fields contribute 0,
never propagate), and `head_siblings` equals this raw count when
`head_age <= sibling_max_age` and is undefined when `head_age` exceeds the
ceiling. -/
theorem spec_C5 (cfg : Settings) (rows : List IndRow) (h : HeadRow)
    (hmem : h ∈ extract_heads cfg rows) :
    ∃ r ∈ rows, r.a2001 = some 1 ∧ ∃ a : ℚ,
      h.head_age = some a ∧ cfg.head_min_age ≤ a ∧
      (a ≤ cfg.sibling_max_age →
        h.head_siblings = some (r.a2028.getD 0 + r.a2029.getD 0)) ∧
      (cfg.sibling_max_age < a → h.head_siblings = none) := by
  have h1 : h ∈ rows.filterMap (head_stage cfg) :=
    dedup_by_hhid_subset [] (rows.filterMap (head_stage cfg)) h hmem
  obtain ⟨r, hr, hs⟩ := List.mem_filterMap.mp h1
  obtain ⟨hrole, b, hb, hage, hmin, hsib1, hsib2⟩ :=
    head_stage_eq_some cfg r h hs
  exact ⟨r, hr, hrole, (cfg.survey_year : ℚ) - b, hage, hmin, hsib1, hsib2⟩

theorem spec_C5_witness :
    ∃ r ∈ [(⟨1, some 1, some 1980, some 2, some 1, none, none, none, none⟩ :
        IndRow)], r.a2001 = some 1 ∧ ∃ a : ℚ,
      (⟨1, some 37, none, none, none, none, some 3⟩ : HeadRow).head_age = some a ∧
      default_settings.head_min_age ≤ a ∧
      (a ≤ default_settings.sibling_max_age →
        (⟨1, some 37, none, none, none, none, some 3⟩ : HeadRow).head_siblings =
          some (r.a2028.getD 0 + r.a2029.getD 0)) ∧
      (default_settings.sibling_max_age < a →
        (⟨1, some 37, none, none, none, none, some 3⟩ : HeadRow).head_siblings =
          none) :=
  spec_C5 default_settings
    [⟨1, some 1, some 1980, some 2, some 1, none, none, none, none⟩]
    ⟨1, some 37, none, none, none, none, some 3⟩ (by
      simp only [extract_heads, List.filterMap_cons, List.filterMap_nil, head_stage]
      norm_num [dedup_by_hhid, default_settings])

/-- C10: a head row whose birth-year field is undefined receives an
undefined `head_age` and is dropped by the minimum-age filter, so no record
with undefined `head_age` appears in the extracted head table. -/
theorem spec_C10 (cfg : Settings) (rows : List IndRow) :
    (∀ r : IndRow, r.a2005 = none → head_stage cfg r = none)
    ∧ (∀ h ∈ extract_heads cfg rows, h.head_age ≠ none) := by
  constructor
  · intro r hb
    unfold head_stage
    by_cases hrole : r.a2001 = some 1
    · rw [if_pos hrole, hb]
      rfl
    · rw [if_neg hrole]
  · intro h hmem
    have h1 : h ∈ rows.filterMap (head_stage cfg) :=
      dedup_by_hhid_subset [] (rows.filterMap (head_stage cfg)) h hmem
    obtain ⟨r, _, hs⟩ := List.mem_filterMap.mp h1
    obtain ⟨-, b, -, hage, -⟩ := head_stage_eq_some cfg r h hs
    rw [hage]
    exact Option.some_ne_none _

theorem spec_C10_witness :
    head_stage default_settings
      (⟨7, some 1, none, some 2, some 1, none, none, none, none⟩ : IndRow) = none
    ∧ ((⟨1, some 37, none, none, none, none, some 3⟩ : HeadRow).head_age ≠ none) :=
  ⟨(spec_C10 default_settings
      [⟨1, some 1, some 1980, some 2, some 1, none, none, none, none⟩]).1
      ⟨7, some 1, none, some 2, some 1, none, none, none, none⟩ rfl,
   (spec_C10 default_settings
      [⟨1, some 1, some 1980, some 2, some 1, none, none, none, none⟩]).2
      ⟨1, some 37, none, none, none, none, some 3⟩ (by
        simp only [extract_heads, List.filterMap_cons, List.filterMap_nil, head_stage]
        norm_num [dedup_by_hhid, default_settings])⟩

set_option maxHeartbeats 1000000 in
theorem check_column_column_eq (df : List (String × List FVal)) (s : ColumnSchema) :
    ∀ v ∈ check_column df s, v.column = s.name := by
  intro v hv
  obtain ⟨nm, nb, minv, maxv, alw⟩ := s
  cases minv <;> cases maxv <;> cases alw <;>
    (unfold check_column at hv
     dsimp only at hv
     repeat'
       first
         | (rcases List.mem_append.mp hv with hv | hv)
         | (split at hv)
     all_goals
       first
         | (simp only [List.mem_singleton] at hv; subst hv; rfl)
         | cases hv)

set_option maxHeartbeats 1000000 in
theorem check_column_not_nullable (df : List (String × List FVal))
    (s : ColumnSchema) (series : List FVal)
    (hl : lookup_column df s.name = some series) (hnn : s.nullable = false)
    (hnull : 0 < series.countP fval_isna) :
    (⟨s.name, "NOT_NULLABLE", "ERROR"⟩ : Violation) ∈ check_column df s
    ∧ (check_column df s).countP (fun v => v.rule == "NOT_NULLABLE") = 1 := by
  obtain ⟨nm, nb, minv, maxv, alw⟩ := s
  dsimp only at hl hnn ⊢
  subst hnn
  unfold check_column
  rw [hl]
  dsimp only
  rw [if_pos hnull]
  simp only [Bool.not_false, eq_self_iff_true, if_true]
  cases minv <;> cases maxv <;> cases alw <;>
    (dsimp only
     constructor
     · split
       · exact List.mem_singleton.mpr rfl
       · simp
     · split
       · rfl
       · simp only [List.countP_append, List.countP_cons, List.countP_nil]
         repeat' split
         all_goals first
           | rfl
           | simp_all)

theorem flatMap_nn_countP_zero (df : List (String × List FVal))
    (target : String) :
    ∀ (l : List ColumnSchema), (∀ u ∈ l, u.name ≠ target) →
      (l.flatMap (check_column df)).countP
        (fun v => v.column == target && v.rule == "NOT_NULLABLE") = 0 := by
  intro l
  induction l with
  | nil => intro h; rfl
  | cons t rest ih =>
    intro h
    rw [List.flatMap_cons, List.countP_append]
    have h1 : (check_column df t).countP
        (fun v => v.column == target && v.rule == "NOT_NULLABLE") = 0 := by
      rw [List.countP_eq_zero]
      intro v hv
      have hc : v.column = t.name := check_column_column_eq df t v hv
      have hne : t.name ≠ target := h t (List.mem_cons_self t rest)
      simp [hc, hne]
    rw [h1, ih (fun u hu => h u (List.mem_cons_of_mem t hu))]

theorem flatMap_nn_countP_unique (df : List (String × List FVal))
    (s : ColumnSchema) (series : List FVal)
    (hl : lookup_column df s.name = some series) (hnn : s.nullable = false)
    (hnull : 0 < series.countP fval_isna) :
    ∀ (schema : List ColumnSchema), s ∈ schema →
      schema.countP (fun t => t.name == s.name) = 1 →
      (schema.flatMap (check_column df)).countP
        (fun v => v.column == s.name && v.rule == "NOT_NULLABLE") = 1 := by
  intro schema
  induction schema with
  | nil => intro h; cases h
  | cons t rest ih =>
    intro hmem huniq
    rw [List.flatMap_cons, List.countP_append]
    rw [List.countP_cons] at huniq
    by_cases hname : t.name = s.name
    · have hcond : ((t.name == s.name) = true) := by simp [hname]
      rw [if_pos hcond] at huniq
      have h0 : rest.countP (fun t => t.name == s.name) = 0 := by omega
      have hst : s = t := by
        rcases List.mem_cons.mp hmem with he | hr
        · exact he
        · exfalso
          have hpos : 0 < rest.countP (fun t => t.name == s.name) :=
            List.countP_pos_iff.mpr ⟨s, hr, by simp⟩
          omega
      subst hst
      have hcongr : (check_column df s).countP
            (fun v => v.column == s.name && v.rule == "NOT_NULLABLE")
          = (check_column df s).countP (fun v => v.rule == "NOT_NULLABLE") :=
        List.countP_congr
          (fun v hv => by simp [check_column_column_eq df s v hv])
      have hself := hcongr.trans
        (check_column_not_nullable df s series hl hnn hnull).2
      have hrest : (rest.flatMap (check_column df)).countP
          (fun v => v.column == s.name && v.rule == "NOT_NULLABLE") = 0 := by
        apply flatMap_nn_countP_zero
        intro u hu hue
        have hpos : 0 < rest.countP (fun t => t.name == s.name) :=
          List.countP_pos_iff.mpr ⟨u, hu, by simp [hue]⟩
        omega
      omega
    · have hsne : s ≠ t := fun he => hname (he ▸ rfl)
      have hsr : s ∈ rest := by
        rcases List.mem_cons.mp hmem with he | hr
        · exact absurd he hsne
        · exact hr
      have hcond : ((t.name == s.name) = false) := by
        simp [hname]
      rw [hcond] at huniq
      simp only [Bool.false_eq_true, if_false] at huniq
      have h0 : (check_column df t).countP
          (fun v => v.column == s.name && v.rule == "NOT_NULLABLE") = 0 := by
        rw [List.countP_eq_zero]
        intro v hv
        have hc : v.column = t.name := check_column_column_eq df t v hv
        simp [hc, hname]
      have hrest := ih hsr (by omega)
      omega

/-- C6: a present non-nullable column containing an undefined value yields
exactly one NOT_NULLABLE violation (ERROR severity) for that column in the
report of any schema listing the column once, and the report is invalid;
in general a report is valid iff it has no ERROR-severity violation
(WARNINGs never affect validity). -/
theorem spec_C6 (df : List (String × List FVal)) (schema : List ColumnSchema)
    (s : ColumnSchema) (series : List FVal)
    (hmem : s ∈ schema) (hnn : s.nullable = false)
    (hl : lookup_column df s.name = some series)
    (hnull : 0 < series.countP fval_isna)
    (huniq : schema.countP (fun t => t.name == s.name) = 1) :
    ((validate df schema).violations.countP
        (fun v => v.column == s.name && v.rule == "NOT_NULLABLE") = 1)
    ∧ (⟨s.name, "NOT_NULLABLE", "ERROR"⟩ : Violation) ∈
        (validate df schema).violations
    ∧ (validate df schema).is_valid = false
    ∧ (∀ r : ValidationReport,
        r.is_valid = true ↔ ∀ v ∈ r.violations, v.severity ≠ "ERROR") := by
  have hnnmem : (⟨s.name, "NOT_NULLABLE", "ERROR"⟩ : Violation) ∈
      (validate df schema).violations :=
    List.mem_flatMap.mpr
      ⟨s, hmem, (check_column_not_nullable df s series hl hnn hnull).1⟩
  refine ⟨?_, hnnmem, ?_, ?_⟩
  · exact flatMap_nn_countP_unique df s series hl hnn hnull schema hmem huniq
  · have hany : (validate df schema).violations.any
        (fun v => v.severity == "ERROR") = true :=
      List.any_eq_true.mpr ⟨_, hnnmem, rfl⟩
    simp [ValidationReport.is_valid, hany]
  · intro r
    simp [ValidationReport.is_valid, List.any_eq_true]

theorem spec_C6_witness :
    (((validate [("hhid", [FVal.fin 1, FVal.nan])]
        [⟨"hhid", false, none, none, none⟩]).violations.countP
        (fun v => v.column == "hhid" && v.rule == "NOT_NULLABLE")) = 1)
    ∧ (⟨"hhid", "NOT_NULLABLE", "ERROR"⟩ : Violation) ∈
        (validate [("hhid", [FVal.fin 1, FVal.nan])]
          [⟨"hhid", false, none, none, none⟩]).violations
    ∧ (validate [("hhid", [FVal.fin 1, FVal.nan])]
        [⟨"hhid", false, none, none, none⟩]).is_valid = false
    ∧ (∀ r : ValidationReport,
        r.is_valid = true ↔ ∀ v ∈ r.violations, v.severity ≠ "ERROR") :=
  spec_C6 [("hhid", [FVal.fin 1, FVal.nan])]
    [⟨"hhid", false, none, none, none⟩]
    ⟨"hhid", false, none, none, none⟩ [FVal.fin 1, FVal.nan]
    (List.mem_singleton.mpr rfl) rfl (by decide) (by decide) (by decide)

theorem align_back_getD_none :
    ∀ (cl : List (Option ℚ)) (ws : List ℚ) (i : ℕ),
      cl.getD i none = none → (align_back cl ws).getD i none = none := by
  intro cl
  induction cl with
  | nil => intro ws i h; simp [align_back]
  | cons c rest ih =>
    intro ws i h
    cases c with
    | none =>
      cases i with
      | zero => simp [align_back]
      | succ j =>
        simp only [List.getD_cons_succ] at h
        simp only [align_back, List.getD_cons_succ]
        exact ih ws j h
    | some x =>
      cases i with
      | zero => simp [List.getD_cons_zero] at h
      | succ j =>
        simp only [List.getD_cons_succ] at h
        cases ws with
        | nil =>
          simp only [align_back, List.getD_cons_succ]
          exact ih [] j h
        | cons w ws2 =>
          simp only [align_back, List.getD_cons_succ]
          exact ih ws2 j h

theorem map_const_none_getD (xs : List FVal) (i : ℕ) :
    (xs.map (fun _ => (none : Option ℚ))).getD i none = none := by
  induction xs generalizing i with
  | nil => simp
  | cons x rest ih =>
    cases i with
    | zero => simp
    | succ j => simp only [List.map_cons, List.getD_cons_succ]; exact ih j

theorem insert_sorted_perm (x : ℚ) (l : List ℚ) :
    (insert_sorted x l).Perm (x :: l) := by
  induction l with
  | nil => exact List.Perm.refl _
  | cons y ys ih =>
    unfold insert_sorted
    split
    · exact List.Perm.refl _
    · exact (List.Perm.cons y ih).trans (List.Perm.swap x y ys)

theorem sort_rat_perm (xs : List ℚ) : (sort_rat xs).Perm xs := by
  induction xs with
  | nil => exact List.Perm.refl _
  | cons a l ih =>
    exact (insert_sorted_perm a (sort_rat l)).trans (List.Perm.cons a ih)

theorem winsor_low_cut_mem (l : ℚ) (xs : List ℚ) (hl1 : l < 1)
    (hne : 0 < xs.length) : winsor_low_cut l xs ∈ xs := by
  unfold winsor_low_cut
  have hperm := sort_rat_perm xs
  have hlen : (sort_rat xs).length = xs.length := hperm.length_eq
  have hcast : (0 : ℚ) < (xs.length : ℚ) := by exact_mod_cast hne
  have h1 : l * (xs.length : ℚ) < (xs.length : ℚ) :=
    mul_lt_of_lt_one_left hcast hl1
  have h3 : ⌊l * (xs.length : ℚ)⌋ < (xs.length : ℤ) :=
    Int.floor_lt.mpr (by exact_mod_cast h1)
  have hidx : (⌊l * (xs.length : ℚ)⌋).toNat < (sort_rat xs).length := by
    rw [hlen]; omega
  rw [List.getD_eq_getElem _ _ hidx]
  exact hperm.mem_iff.mp (List.getElem_mem hidx)

theorem winsor_high_cut_mem (u : ℚ) (xs : List ℚ) (hne : 0 < xs.length) :
    winsor_high_cut u xs ∈ xs := by
  unfold winsor_high_cut
  have hperm := sort_rat_perm xs
  have hlen : (sort_rat xs).length = xs.length := hperm.length_eq
  have hidx : xs.length - (⌊u * (xs.length : ℚ)⌋).toNat - 1 <
      (sort_rat xs).length := by
    rw [hlen]; omega
  rw [List.getD_eq_getElem _ _ hidx]
  exact hperm.mem_iff.mp (List.getElem_mem hidx)

theorem clamp_count_bounds (l : ℚ) (n : ℕ) (h0 : 0 ≤ l) (h1 : l ≤ 1) :
    ((min (⌊l * (n : ℚ)⌋.toNat) n : ℕ) : ℚ) ≤ l * n
    ∧ (l * (n : ℚ)) < ((min (⌊l * (n : ℚ)⌋.toNat) n : ℕ) : ℚ) + 1 := by
  have hnn : (0 : ℚ) ≤ l * (n : ℚ) := mul_nonneg h0 (Nat.cast_nonneg n)
  have hfl : (0 : ℤ) ≤ ⌊l * (n : ℚ)⌋ := Int.floor_nonneg.mpr hnn
  have hle : l * (n : ℚ) ≤ (n : ℚ) := by
    calc l * (n : ℚ) ≤ 1 * (n : ℚ) :=
          mul_le_mul_of_nonneg_right h1 (Nat.cast_nonneg n)
      _ = (n : ℚ) := one_mul _
  have hfn : ⌊l * (n : ℚ)⌋ ≤ (n : ℤ) := by
    have := Int.floor_le_floor hle
    rwa [Int.floor_natCast] at this
  have hmin : min (⌊l * (n : ℚ)⌋.toNat) n = ⌊l * (n : ℚ)⌋.toNat := by omega
  rw [hmin]
  have hcast : ((⌊l * (n : ℚ)⌋.toNat : ℕ) : ℚ) = ((⌊l * (n : ℚ)⌋ : ℤ) : ℚ) := by
    exact_mod_cast congrArg (fun z : ℤ => (z : ℚ)) (Int.toNat_of_nonneg hfl)
  rw [hcast]
  exact ⟨Int.floor_le _, Int.lt_floor_add_one _⟩

/-- C7: the winsorisation stage of `compute_debt_ratio` (i) leaves every row
that was undefined after the infinity replacement undefined in
`debt_ratio_winsorized` (alignment to original row positions), (ii) computes
both winsorisation bounds as order statistics of the defined subset only,
and (iii) the number of observations the procedure sets at each tail —
`⌊limit·n⌋` of the `n` defined observations — is within one observation of
`limit·n`. -/
theorem spec_C7 (l u : ℚ) (col : List FVal)
    (hl0 : 0 ≤ l) (hl1 : l < 1) (hu0 : 0 ≤ u) (hu1 : u ≤ 1) :
    (∀ i : ℕ, (cleaned_ratios col).getD i none = none →
      (winsorize_stage l u col).getD i none = none)
    ∧ (0 < (defined_ratios col).length →
        winsor_low_cut l (defined_ratios col) ∈ defined_ratios col
        ∧ winsor_high_cut u (defined_ratios col) ∈ defined_ratios col)
    ∧ ((low_clamp_count l (defined_ratios col).length : ℚ) ≤
          l * ((defined_ratios col).length : ℚ)
        ∧ l * ((defined_ratios col).length : ℚ) <
          (low_clamp_count l (defined_ratios col).length : ℚ) + 1)
    ∧ ((high_clamp_count u (defined_ratios col).length : ℚ) ≤
          u * ((defined_ratios col).length : ℚ)
        ∧ u * ((defined_ratios col).length : ℚ) <
          (high_clamp_count u (defined_ratios col).length : ℚ) + 1) := by
  refine ⟨?_, ?_, ?_, ?_⟩
  · intro i h
    unfold winsorize_stage
    split
    · exact map_const_none_getD col i
    · exact align_back_getD_none (cleaned_ratios col) _ i h
  · intro hpos
    exact ⟨winsor_low_cut_mem l (defined_ratios col) hl1 hpos,
      winsor_high_cut_mem u (defined_ratios col) hpos⟩
  · exact clamp_count_bounds l (defined_ratios col).length hl0 (le_of_lt hl1)
  · exact clamp_count_bounds u (defined_ratios col).length hu0 hu1

theorem spec_C7_witness :
    (winsorize_stage default_settings.winsorize_limits.1
        default_settings.winsorize_limits.2
        [FVal.fin 3, FVal.nan, FVal.fin 1, FVal.pinf, FVal.fin 2]).getD 1
        none = none
    ∧ (winsorize_stage default_settings.winsorize_limits.1
        default_settings.winsorize_limits.2
        [FVal.fin 3, FVal.nan, FVal.fin 1, FVal.pinf, FVal.fin 2]).getD 3
        none = none :=
  ⟨(spec_C7 default_settings.winsorize_limits.1
      default_settings.winsorize_limits.2
      [FVal.fin 3, FVal.nan, FVal.fin 1, FVal.pinf, FVal.fin 2]
      (by decide) (by decide) (by decide) (by decide)).1 1 rfl,
   (spec_C7 default_settings.winsorize_limits.1
      default_settings.winsorize_limits.2
      [FVal.fin 3, FVal.nan, FVal.fin 1, FVal.pinf, FVal.fin 2]
      (by decide) (by decide) (by decide) (by decide)).1 3 rfl⟩
